import Mathlib

/-!
Verification of the CodeNexus-Terminal backend (`terminal_backend.py`).

The development shallowly embeds the backend: paths are strings, the
filesystem is an explicit association of canonical path strings to
directories and file contents, and each Python command handler becomes a
Lean function threading `(Backend, FS)` state explicitly.  Python
exceptions become `Except` values; an exception raised inside a handler
carries the state mutated so far, exactly as the Python object state
survives a raised exception.

The model world is symlink-free: `os.path.realpath` on a symlink-free
filesystem is lexical normalisation of `.`/`..`/empty segments, which is
what `realpathNS` computes.
-/

namespace CodeNexus

/-- Python whitespace for `str.strip()` (ASCII subset). -/
def isPyWhitespace (c : Char) : Bool :=
  c = ' ' ∨ c = '\t' ∨ c = '\n' ∨ c = '\r' ∨ c = '\x0b' ∨ c = '\x0c'

/-- `str.strip()`: drop leading and trailing whitespace. -/
def pyStrip (s : String) : String :=
  String.mk (((s.data.dropWhile isPyWhitespace).reverse.dropWhile isPyWhitespace).reverse)

/-- `str.lower()` on one character (ASCII range, as exercised by the backend). -/
def pyCharLower (c : Char) : Char :=
  if 65 ≤ c.toNat ∧ c.toNat ≤ 90 then Char.ofNat (c.toNat + 32) else c

/-- `str.lower()` (ASCII range). -/
def pyLower (s : String) : String :=
  String.mk (s.data.map pyCharLower)

/-- `str.lstrip("/")`: remove every leading `/`. -/
def lstripSlash (s : String) : String :=
  String.mk (s.data.dropWhile (· = '/'))

/-- `pre` is a prefix of `s` (structural, so it evaluates in the kernel). -/
def strHasPrefix (s pre : String) : Bool :=
  pre.data.isPrefixOf s.data

/-- `suf` is a suffix of `s`. -/
def strHasSuffix (s suf : String) : Bool :=
  suf.data.isSuffixOf s.data

/-- Drop the first `n` characters of `s`. -/
def strDrop (s : String) (n : Nat) : String :=
  String.mk (s.data.drop n)

/-- Split a character list on a separator character (`String.splitOn` on a
one-character separator, structurally). -/
def splitOnChar (c : Char) : List Char → List (List Char)
  | [] => [[]]
  | d :: rest =>
      match splitOnChar c rest with
      | [] => [[d]]
      | g :: gs => if d = c then [] :: g :: gs else (d :: g) :: gs

/-- `os.path.join a b` for the shapes the backend produces
(`b` never absolute here, `a` an absolute path). -/
def pyJoin (a b : String) : String :=
  if strHasPrefix b "/" then b
  else if a = "" then b
  else if strHasSuffix a "/" then a ++ b
  else a ++ "/" ++ b

/-- Split an absolute path into its components, dropping empty segments. -/
def splitPath (p : String) : List String :=
  ((splitOnChar '/' p.data).map String.mk).filter (· ≠ "")

/-- Rebuild an absolute path from components (`[] ↦ "/"`). -/
def joinComps (cs : List String) : String :=
  "/" ++ String.intercalate "/" cs

/-- Collapse `.`, `..` and empty segments of an absolute path, root-anchored:
`..` at the root stays at the root (POSIX `realpath` behaviour). -/
def normSegs (segs : List String) : List String :=
  (segs.foldl
    (fun acc seg =>
      if seg = "" ∨ seg = "." then acc
      else if seg = ".." then acc.tail
      else seg :: acc) []).reverse

/-- `os.path.realpath` on a symlink-free filesystem: lexical normalisation. -/
def realpathNS (p : String) : String :=
  joinComps (normSegs ((splitOnChar '/' p.data).map String.mk))

/-- Python exceptions the handlers can raise. -/
inductive PyErr where
  | permission (msg : String)
  | other (msg : String)
  deriving Repr, DecidableEq

/-- `TerminalBackend._resolve` (terminal_backend.py lines 21–32), literally:
empty/`.` returns `cwd`; a leading `/` re-roots under `root`; the joined
candidate is canonicalised; containment is the source's
`candidate.startswith(self.root)` STRING prefix test. -/
def pyResolve (root cwd path : String) : Except PyErr String :=
  if path = "" ∨ path = "." then .ok cwd
  else
    let candidate :=
      if strHasPrefix path "/" then pyJoin root (lstripSlash path)
      else pyJoin cwd path
    let c := realpathNS candidate
    if strHasPrefix c root then .ok c
    else .error (.permission "Access outside sandbox is not allowed.")

/-- Canonical-path containment as the spec demands it: `p` equals `root` or
is a path-component descendant of `root`. -/
def pathWithin (root p : String) : Bool :=
  p = root ∨ strHasPrefix p (root ++ "/")

/-- `os.path.dirname` for absolute paths: the part before the last `/`
(the root `/` is its own dirname). -/
def pyDirname (p : String) : String :=
  match (splitPath p).reverse with
  | [] => "/"
  | _ :: rest =>
      match rest.reverse with
      | [] => "/"
      | cs => joinComps cs

/-- `os.path.basename` for absolute paths. -/
def pyBasename (p : String) : String :=
  match (splitPath p).reverse with
  | [] => ""
  | c :: _ => c

/-- All non-root ancestor prefixes of an absolute path, shortest first,
ending with the path itself: `/a/b ↦ [/a, /a/b]`. -/
def pathPrefixes (p : String) : List String :=
  (List.range (splitPath p).length).map (fun i => joinComps ((splitPath p).take (i + 1)))

/-- The filesystem seen by the backend: a set of existing directories and a
map from file paths to their textual contents, all keyed by canonical
absolute path strings.  `/` is implicitly a directory via `fsIsDir`. -/
structure FS where
  dirs : List String
  files : List (String × String)
  deriving Repr, DecidableEq

def fsIsDir (fs : FS) (p : String) : Bool :=
  p = "/" ∨ p ∈ fs.dirs

def fsLookupFile (fs : FS) (p : String) : Option String :=
  fs.files.lookup p

def fsIsFile (fs : FS) (p : String) : Bool :=
  (fsLookupFile fs p).isSome

/-- `os.makedirs(p, exist_ok=True)`: create every missing ancestor; raising
when a needed component already exists as a regular file. -/
def fsMakedirs (fs : FS) (p : String) : Except PyErr FS :=
  if (pathPrefixes p).any (fun q => fsIsFile fs q) then
    .error (.other ("[Errno 17] File exists: " ++ p))
  else
    .ok { fs with dirs := fs.dirs ++ (pathPrefixes p).filter (fun q => ¬ q ∈ fs.dirs) }

/-- `open(p, "w").write(c)`: overwrite `p` with contents `c`; raising when
`p` is a directory or its parent directory does not exist. -/
def fsWrite (fs : FS) (p c : String) : Except PyErr FS :=
  if fsIsDir fs p then .error (.other ("[Errno 21] Is a directory: " ++ p))
  else if ¬ fsIsDir fs (pyDirname p) then
    .error (.other ("[Errno 2] No such file or directory: " ++ p))
  else .ok { fs with files := (p, c) :: fs.files.filter (fun e => e.1 ≠ p) }

/-- `open(p, "a")` as used by `touch`: create `p` empty if absent, keep its
contents otherwise; raising when `p` is a directory or the parent is missing. -/
def fsTouch (fs : FS) (p : String) : Except PyErr FS :=
  if fsIsDir fs p then .error (.other ("[Errno 21] Is a directory: " ++ p))
  else if ¬ fsIsDir fs (pyDirname p) then
    .error (.other ("[Errno 2] No such file or directory: " ++ p))
  else if fsIsFile fs p then .ok fs
  else .ok { fs with files := (p, "") :: fs.files }

/-- `os.remove p`: delete the regular file `p`; `FileNotFoundError` when absent. -/
def fsRemove (fs : FS) (p : String) : Except PyErr FS :=
  if fsIsFile fs p then
    .ok { fs with files := fs.files.filter (fun e => e.1 ≠ p) }
  else .error (.other ("[Errno 2] No such file or directory: " ++ p))

/-- `shutil.rmtree p`: delete `p` and every path below it.  On canonical
path strings component descent is exactly the `p ++ "/"` string prefix. -/
def fsRmtree (fs : FS) (p : String) : FS :=
  { dirs := fs.dirs.filter (fun d => ¬ (d = p ∨ strHasPrefix d (p ++ "/"))),
    files := fs.files.filter (fun e => ¬ (e.1 = p ∨ strHasPrefix e.1 (p ++ "/"))) }

/-- Rename a path inside the filesystem map (`os.rename` on our canonical
world): a directory carries its whole subtree, a file just its entry. -/
def fsRename (fs : FS) (src dst : String) : Except PyErr FS :=
  let remap := fun (q : String) =>
    if q = src then dst
    else if strHasPrefix q (src ++ "/") then dst ++ strDrop q src.length
    else q
  if dst = src then
    if fsIsDir fs src ∨ fsIsFile fs src then .ok fs
    else .error (.other ("[Errno 2] No such file or directory: " ++ src))
  else if fsIsDir fs src ∨ fsIsFile fs src then
    .ok { dirs := (fs.dirs.filter (· ≠ dst)).map remap,
          files := (fs.files.filter (fun e => e.1 ≠ dst)).map (fun e => (remap e.1, e.2)) }
  else .error (.other ("[Errno 2] No such file or directory: " ++ src))

/-- `shutil.move src dst`: into an existing directory `dst` the source moves
below it under its base name (failing if that target exists); otherwise a
plain rename. -/
def fsMove (fs : FS) (src dst : String) : Except PyErr FS :=
  if fsIsDir fs dst then
    let real := (if strHasSuffix dst "/" then dst else dst ++ "/") ++ pyBasename src
    if fsIsDir fs real ∨ fsIsFile fs real then
      .error (.other ("Destination path '" ++ real ++ "' already exists"))
    else fsRename fs src real
  else fsRename fs src dst

/-- `shutil.copytree src dst`: recursive copy, failing if `dst` exists. -/
def fsCopytree (fs : FS) (src dst : String) : Except PyErr FS :=
  if fsIsDir fs dst ∨ fsIsFile fs dst then
    .error (.other ("[Errno 17] File exists: " ++ dst))
  else
    let remap := fun (q : String) =>
      if q = src then dst
      else if strHasPrefix q (src ++ "/") then dst ++ strDrop q src.length
      else q
    .ok { dirs := fs.dirs ++ (fs.dirs.filter
            (fun d => d = src ∨ strHasPrefix d (src ++ "/"))).map remap,
          files := fs.files ++ (fs.files.filter
            (fun e => strHasPrefix e.1 (src ++ "/"))).map (fun e => (remap e.1, e.2)) }

/-- `shutil.copy2 src dst` for a regular file source. -/
def fsCopy2 (fs : FS) (src dst : String) : Except PyErr FS :=
  match fsLookupFile fs src with
  | none => .error (.other ("[Errno 2] No such file or directory: " ++ src))
  | some c => fsWrite fs dst c

/-- The session state of `TerminalBackend`: sandbox root (fixed, canonical)
and current working directory. -/
structure Backend where
  root : String
  cwd : String
  deriving Repr, DecidableEq

/-- Result of one handler call: either normal output plus the new state, or
a raised exception carrying the state mutated before the raise. -/
abbrev HRes := Except (PyErr × Backend × FS) (String × Backend × FS)

/-- Lift `_resolve` into a handler, packaging a raise with current state. -/
def resolveH (b : Backend) (fs : FS) (p : String) : Except (PyErr × Backend × FS) String :=
  match pyResolve b.root b.cwd p with
  | .ok q => .ok q
  | .error e => .error (e, b, fs)

/-- Lift a fallible filesystem primitive into a handler. -/
def fsH (b : Backend) (r : Except PyErr FS) (fs : FS) : Except (PyErr × Backend × FS) FS :=
  match r with
  | .ok fs' => .ok fs'
  | .error e => .error (e, b, fs)

/-- Drop the longest common prefix of two component lists. -/
def dropCommon : List String → List String → List String × List String
  | a :: as, b :: bs => if a = b then dropCommon as bs else (a :: as, b :: bs)
  | as, bs => (as, bs)

/-- `os.path.relpath path start` on absolute paths. -/
def pyRelpath (path start : String) : String :=
  let (pa, st) := dropCommon (splitPath path) (splitPath start)
  let segs := List.replicate st.length ".." ++ pa
  if segs = [] then "." else String.intercalate "/" segs

/-- `TerminalBackend.cmd_pwd` (`os.sep` is `/`, so the `replace` is identity). -/
def cmd_pwd (b : Backend) (fs : FS) (_args : List String) : HRes :=
  let rel := pyRelpath b.cwd b.root
  .ok (if rel = "." then "/" else "/" ++ rel, b, fs)

def strLeB (a b : String) : Bool := decide (a ≤ b)

/-- Names of the immediate children of directory `p`. -/
def fsChildren (fs : FS) (p : String) : List String :=
  let pref := if p = "/" then "/" else p ++ "/"
  ((fs.dirs ++ fs.files.map Prod.fst).filterMap (fun q =>
    if strHasPrefix q pref then
      let rest := strDrop q pref.length
      if rest ≠ "" ∧ ¬ ('/' ∈ rest.data) then some rest else none
    else none)).dedup

/-- `TerminalBackend.cmd_ls`: sorted entries of a directory, `/`-suffixed
for subdirectories; a non-directory target reports its base name. -/
def cmd_ls (b : Backend) (fs : FS) (args : List String) : HRes := do
  let target ← match args with
    | [] => pure b.cwd
    | a :: _ => resolveH b fs a
  if fsIsDir fs target then
    let pref := if target = "/" then "/" else target ++ "/"
    let lines := ((fsChildren fs target).mergeSort strLeB).map
      (fun name => name ++ (if fsIsDir fs (pref ++ name) then "/" else ""))
    .ok (String.intercalate "\n" lines, b, fs)
  else
    .ok (pyBasename target, b, fs)

/-- `TerminalBackend.cmd_cd`. -/
def cmd_cd (b : Backend) (fs : FS) (args : List String) : HRes := do
  match args with
  | [] => .ok ("", { b with cwd := b.root }, fs)
  | a :: _ =>
      let target ← resolveH b fs a
      if fsIsDir fs target then .ok ("", { b with cwd := target }, fs)
      else .ok ("cd: no such directory: " ++ a, b, fs)

/-- `TerminalBackend.cmd_mkdir`. -/
def cmd_mkdir (b : Backend) (fs : FS) (args : List String) : HRes := do
  match args with
  | [] => .ok ("mkdir: missing operand", b, fs)
  | a :: _ =>
      let path ← resolveH b fs a
      let fs' ← fsH b (fsMakedirs fs path) fs
      .ok ("", b, fs')

/-- `TerminalBackend.cmd_rm`: the path operand is `args[0]`; the recursive
flag is detected anywhere in `args` by membership. -/
def cmd_rm (b : Backend) (fs : FS) (args : List String) : HRes := do
  match args with
  | [] => .ok ("rm: missing operand", b, fs)
  | a :: _ =>
      let path ← resolveH b fs a
      if path = b.root then .ok ("rm: refusing to remove root sandbox", b, fs)
      else if fsIsDir fs path then
        if "-r" ∈ args ∨ "--recursive" ∈ args then
          .ok ("", b, fsRmtree fs path)
        else
          .ok ("rm: is a directory (use -r to remove directories)", b, fs)
      else do
        let fs' ← fsH b (fsRemove fs path) fs
        .ok ("", b, fs')

/-- `MAX_CAT_SIZE = 200*1024`. -/
def MAX_CAT_SIZE : Nat := 200 * 1024

/-- `TerminalBackend.cmd_cat`: the on-disk byte size of a text file written
by this backend is the UTF-8 byte size of its contents. -/
def cmd_cat (b : Backend) (fs : FS) (args : List String) : HRes := do
  match args with
  | [] => .ok ("cat: missing file operand", b, fs)
  | a :: _ =>
      let path ← resolveH b fs a
      match fsLookupFile fs path with
      | none => .ok ("cat: " ++ a ++ ": No such file", b, fs)
      | some content =>
          let size := content.utf8ByteSize
          if size > MAX_CAT_SIZE then
            .ok ("cat: file too large (" ++ toString size ++ " bytes)", b, fs)
          else
            .ok (content, b, fs)

/-- `TerminalBackend.cmd_touch`. -/
def cmd_touch (b : Backend) (fs : FS) (args : List String) : HRes := do
  match args with
  | [] => .ok ("touch: missing file operand", b, fs)
  | a :: _ =>
      let path ← resolveH b fs a
      let fs₁ ← fsH b (fsMakedirs fs (pyDirname path)) fs
      let fs₂ ← fsH b (fsTouch fs₁ path) fs₁
      .ok ("", b, fs₂)

/-- `TerminalBackend.cmd_mv`. -/
def cmd_mv (b : Backend) (fs : FS) (args : List String) : HRes := do
  match args with
  | a0 :: a1 :: _ =>
      let src ← resolveH b fs a0
      let dst ← resolveH b fs a1
      let fs' ← fsH b (fsMove fs src dst) fs
      .ok ("", b, fs')
  | _ => .ok ("mv: missing operand", b, fs)

/-- `TerminalBackend.cmd_cp`. -/
def cmd_cp (b : Backend) (fs : FS) (args : List String) : HRes := do
  match args with
  | a0 :: a1 :: _ =>
      let src ← resolveH b fs a0
      let dst ← resolveH b fs a1
      if fsIsDir fs src then do
        let fs' ← fsH b (fsCopytree fs src dst) fs
        .ok ("", b, fs')
      else do
        let fs₁ ← fsH b (fsMakedirs fs (pyDirname dst)) fs
        let fs₂ ← fsH b (fsCopy2 fs₁ src dst) fs₁
        .ok ("", b, fs₂)
  | _ => .ok ("cp: missing operand", b, fs)

/-- `TerminalBackend.cmd_echo`. -/
def cmd_echo (b : Backend) (fs : FS) (args : List String) : HRes :=
  .ok (String.intercalate " " args, b, fs)

/-- `TerminalBackend.cmd_ps`: host-process enumeration is outside the
filesystem model; the informational text is abstracted as a constant.  No
state is touched and no exception escapes, as in the source. -/
def cmd_ps (b : Backend) (fs : FS) (_args : List String) : HRes :=
  .ok ("", b, fs)

/-- `TerminalBackend.cmd_sysinfo`: host metrics abstracted as a constant. -/
def cmd_sysinfo (b : Backend) (fs : FS) (_args : List String) : HRes :=
  .ok ("CPU: 0%\nMemory: 0%", b, fs)

/-- `CMD_DESCRIPTIONS`. -/
def CMD_DESCRIPTIONS : List (String × String) :=
  [("pwd", "Print the current working directory."),
   ("ls", "List directory contents."),
   ("cd", "Change the current working directory."),
   ("mkdir", "Create a new directory."),
   ("rm", "Remove files or directories (-r for recursive)."),
   ("cat", "Display the content of a file."),
   ("touch", "Create a new, empty file."),
   ("mv", "Move or rename a file or directory."),
   ("cp", "Copy files or directories."),
   ("echo", "Display a line of text."),
   ("ps", "Display a list of running processes."),
   ("sysinfo", "Display system information (CPU, memory, cores)."),
   ("help", "Show this help message.")]

def padRight (s : String) (n : Nat) : String :=
  s ++ String.mk (List.replicate (n - s.length) ' ')

/-- `TerminalBackend.cmd_help`. -/
def cmd_help (b : Backend) (fs : FS) (_args : List String) : HRes :=
  let names := (CMD_DESCRIPTIONS.map Prod.fst).mergeSort strLeB
  let lines := "Available commands:" :: names.map (fun c =>
    "  " ++ padRight c 10 ++ " - " ++
      ((CMD_DESCRIPTIONS.lookup c).getD "No description available."))
  .ok (String.intercalate "\n" lines, b, fs)

/-- The `COMMANDS` dispatch table. -/
def COMMANDS : List (String × (Backend → FS → List String → HRes)) :=
  [("pwd", cmd_pwd), ("ls", cmd_ls), ("cd", cmd_cd), ("mkdir", cmd_mkdir),
   ("rm", cmd_rm), ("cat", cmd_cat), ("touch", cmd_touch), ("mv", cmd_mv),
   ("cp", cmd_cp), ("echo", cmd_echo), ("ps", cmd_ps),
   ("sysinfo", cmd_sysinfo), ("help", cmd_help)]

/-- `TerminalBackend._run_command_parts`: dispatch and catch every handler
exception, converting it to a textual result; the state mutated before a
raise survives, as it does on the Python object. -/
def runCommandParts (b : Backend) (fs : FS) (parts : List String) :
    String × Bool × Backend × FS :=
  match parts with
  | [] => ("", true, b, fs)
  | cmd :: args =>
      match COMMANDS.lookup cmd with
      | some handler =>
          match handler b fs args with
          | .ok (out, b', fs') => (out, true, b', fs')
          | .error (.permission m, b', fs') => ("PermissionError: " ++ m, false, b', fs')
          | .error (.other m, b', fs') => ("Error: " ++ m, false, b', fs')
      | none => (cmd ++ ": command not found", false, b, fs)

/-- Lexer mode of `shlex` in POSIX mode: between quotes, after a `\`
between quotes, inside `'…'`, inside `"…"`, after a `\` inside `"…"`.
The escape modes make every step consume exactly one character, so the
machine is structurally recursive and evaluates in the kernel. -/
inductive LexState where
  | plain | plainEsc | inSingle | inDouble | doubleEsc
  deriving Repr, DecidableEq

/-- One step short of `shlex.split(s, posix=True)` (whitespace splitting,
single and double quotes, backslash escapes; inside double quotes a
backslash only escapes `"` and `\`).  `tok` is the token being built,
`started` whether it exists (so `''` yields an empty token), `acc` the
finished tokens. -/
def shlexGo : List Char → LexState → List Char → Bool → List String →
    Except String (List String)
  | [], .plain, tok, started, acc =>
      .ok (if started then acc ++ [String.mk tok] else acc)
  | [], .plainEsc, _, _, _ => .error "No escaped character"
  | [], .doubleEsc, _, _, _ => .error "No escaped character"
  | [], .inSingle, _, _, _ => .error "No closing quotation"
  | [], .inDouble, _, _, _ => .error "No closing quotation"
  | c :: rest, .plain, tok, started, acc =>
      if isPyWhitespace c then
        if started then shlexGo rest .plain [] false (acc ++ [String.mk tok])
        else shlexGo rest .plain [] false acc
      else if c = '\'' then shlexGo rest .inSingle tok true acc
      else if c = '"' then shlexGo rest .inDouble tok true acc
      else if c = '\\' then shlexGo rest .plainEsc tok true acc
      else shlexGo rest .plain (tok ++ [c]) true acc
  | c :: rest, .plainEsc, tok, _, acc =>
      shlexGo rest .plain (tok ++ [c]) true acc
  | c :: rest, .inSingle, tok, _, acc =>
      if c = '\'' then shlexGo rest .plain tok true acc
      else shlexGo rest .inSingle (tok ++ [c]) true acc
  | c :: rest, .inDouble, tok, _, acc =>
      if c = '"' then shlexGo rest .plain tok true acc
      else if c = '\\' then shlexGo rest .doubleEsc tok true acc
      else shlexGo rest .inDouble (tok ++ [c]) true acc
  | c :: rest, .doubleEsc, tok, _, acc =>
      if c = '"' ∨ c = '\\' then shlexGo rest .inDouble (tok ++ [c]) true acc
      else shlexGo rest .inDouble (tok ++ ['\\', c]) true acc

/-- `shlex.split(s, posix=True)`. -/
def shlexSplit (s : String) : Except String (List String) :=
  shlexGo s.data .plain [] false []

/-- The complement of the character class of `shlex.quote`'s
`_find_unsafe` regex: ASCII word characters plus `@%+=:,.` and `/` and `-`. -/
def shSafeChar (c : Char) : Bool :=
  c.isAlphanum ∨ c ∈ ['_', '@', '%', '+', '=', ':', ',', '.', '/', '-']

/-- `shlex.quote`: the `replace` of the single-character needle `'` by
`'"'"'` is written as a per-character expansion. -/
def shQuote (s : String) : String :=
  let sq := String.singleton '\''
  if s = "" then sq ++ sq
  else if s.data.all shSafeChar then s
  else
    sq ++ String.mk (s.data.flatMap
      (fun c => if c = '\'' then ['\'', '"', '\'', '"', '\''] else [c])) ++ sq

/-- The part of a string a `.`-based regex group can cover: the first line
(`.` matches every character except `\n`). -/
def firstLine (cs : List Char) : List Char :=
  cs.takeWhile (· ≠ '\n')

/-- `" to "` sits at the head of the list with a nonempty remainder:
the base case of `splitTo`. -/
def toHere : List Char → Option (List Char × List Char)
  | ' ' :: 't' :: 'o' :: ' ' :: d :: tail => some ([], d :: tail)
  | _ => none

/-- Split at the RIGHTMOST occurrence of `" to "` that leaves a nonempty
suffix — the split the greedy group `(.+)` of `move (.+) to (.+)` commits
to. -/
def splitTo : List Char → Option (List Char × List Char)
  | [] => none
  | c :: rest =>
      match splitTo rest with
      | some (pre, post) => some (c :: pre, post)
      | none => toHere (c :: rest)

/-- First translation regex, `create (?:a )?folder called (.+)`, tried for
one concrete prefix (`pre` is one of the two expansions of the optional
group): the group is the nonempty remainder of the first line. -/
def nlFolder (pre s : String) : Option String :=
  if strHasPrefix s pre then
    match firstLine (s.data.drop pre.length) with
    | [] => none
    | g => some ("mkdir " ++ shQuote (String.mk g))
  else none

/-- Second translation regex, `move (.+) to (.+)`: greedy first group, so
the rightmost viable `" to "` split of the first line after `move `. -/
def nlMove (s : String) : Option String :=
  if strHasPrefix s "move " then
    match splitTo (firstLine (s.data.drop 5)) with
    | some (pre, post) =>
        if pre ≠ [] then
          some ("mv " ++ shQuote (String.mk pre) ++ " " ++ shQuote (String.mk post))
        else none
    | none => none
  else none

/-- Third translation regex, `create file (.+)` → `touch`. -/
def nlFile (s : String) : Option String :=
  if strHasPrefix s "create file " then
    match firstLine (s.data.drop "create file ".length) with
    | [] => none
    | g => some ("touch " ++ shQuote (String.mk g))
  else none

/-- Match the three translation regexes against the stripped, lowercased
line (`re.match`, so anchored at the start), in the source's order. -/
def nlMatch (s : String) : Option String :=
  match nlFolder "create a folder called " s with
  | some r => some r
  | none =>
  match nlFolder "create folder called " s with
  | some r => some r
  | none =>
  match nlMove s with
  | some r => some r
  | none => nlFile s

/-- `nl_to_cmd` (terminal_backend.py lines 242–253): strip, lowercase, then
the ordered pattern table. -/
def nl_to_cmd (nl : String) : Option String :=
  nlMatch (pyLower (pyStrip nl))

/-- The body of `TerminalBackend.execute` after the translation step:
strip, tokenize, split off redirection, dispatch.  The redirection target
is resolved against the state LEFT BY the command portion, and neither that
resolution nor the write is guarded by the source's `try`, so their
exceptions escape (carrying the mutated state). -/
def executeCore (b : Backend) (fs : FS) (raw : String) :
    Except (PyErr × Backend × FS) (String × Backend × FS) :=
  let cmdline := pyStrip raw
  if cmdline = "" then .ok ("", b, fs)
  else
    match shlexSplit cmdline with
    | .error e => .ok ("parse error: " ++ e, b, fs)
    | .ok parts =>
        if ">" ∈ parts then
          let idx := parts.indexOf ">"
          let cmd_parts := parts.take idx
          match parts[idx + 1]? with
          | none => .ok ("syntax error near unexpected token '>'", b, fs)
          | some out_file =>
              let (out, _ok, b', fs') := runCommandParts b fs cmd_parts
              match pyResolve b'.root b'.cwd out_file with
              | .error e => .error (e, b', fs')
              | .ok target =>
                  match fsMakedirs fs' (pyDirname target) with
                  | .error e => .error (e, b', fs')
                  | .ok fs₁ =>
                      match fsWrite fs₁ target out with
                      | .error e => .error (e, b', fs₁)
                      | .ok fs₂ => .ok ("", b', fs₂)
        else
          let (out, _ok, b', fs') := runCommandParts b fs parts
          .ok (out, b', fs')

/-- `TerminalBackend.execute`: apply the translator (its outputs are never
empty, so Python's truthiness test is `Option` matching), then the core. -/
def execute (b : Backend) (fs : FS) (raw : String) :
    Except (PyErr × Backend × FS) (String × Backend × FS) :=
  match nl_to_cmd raw with
  | some c => executeCore b fs c
  | none => executeCore b fs raw

/-! ### Concrete session states used as witnesses -/

/-- A fresh backend over the sandbox root `/sandbox`. -/
def b0 : Backend := ⟨"/sandbox", "/sandbox"⟩

/-- The empty sandbox filesystem. -/
def fs0 : FS := ⟨["/sandbox"], []⟩

/-- A sandbox holding one small file `f.txt`. -/
def fsSmall : FS := ⟨["/sandbox"], [("/sandbox/f.txt", "hi")]⟩

/-- A sandbox holding a directory `d` with one file inside it. -/
def fsDir : FS := ⟨["/sandbox", "/sandbox/d"], [("/sandbox/d/f.txt", "x")]⟩

/-- The sandbox after `echo hello > out.txt` on `fs0`. -/
def fsOut : FS := ⟨["/sandbox"], [("/sandbox/out.txt", "hello")]⟩

/-- The sandbox after `frobnicate > out.txt` on `fs0`. -/
def fsNotFound : FS :=
  ⟨["/sandbox"], [("/sandbox/out.txt", "frobnicate: command not found")]⟩

/-- The sandbox after `create file README.md` on `fs0`: the created file is
the lowercased `readme.md`. -/
def fsReadme : FS := ⟨["/sandbox"], [("/sandbox/readme.md", "")]⟩

/-- The line `execute` actually parses: the translator's rewrite when one
of the patterns matches, the raw input otherwise. -/
def effectiveLine (raw : String) : String :=
  match nl_to_cmd raw with
  | some c => c
  | none => raw

/-- The parsed line carries no top-level `>` token (or fails to parse, or
is blank) — the condition under which `execute` never reaches the unguarded
redirection branch. -/
def redirFree (s : String) : Bool :=
  match shlexSplit (pyStrip s) with
  | .error _ => true
  | .ok parts => ¬ ">" ∈ parts

/-! ### Helper lemmas -/

theorem dropCommon_self (l : List String) : dropCommon l l = ([], []) := by
  induction l with
  | nil => rfl
  | cons a as ih => simp [dropCommon, ih]

/-- `os.path.relpath p p = "."`. -/
theorem pyRelpath_self (p : String) : pyRelpath p p = "." := by
  simp [pyRelpath, dropCommon_self]

/-- A successful `open(p, "w")` leaves `p` holding exactly the written text. -/
theorem fsWrite_ok_lookup {fs fs' : FS} {p c : String}
    (h : fsWrite fs p c = .ok fs') : fsLookupFile fs' p = some c := by
  unfold fsWrite at h
  split at h
  · exact absurd h (by simp)
  · split at h
    · exact absurd h (by simp)
    · cases h
      simp [fsLookupFile, List.lookup]

theorem ofNat_add32_toNat : ∀ n : Nat, 65 ≤ n → n ≤ 90 →
    (Char.ofNat (n + 32)).toNat = n + 32 := by
  intro n h1 h2
  interval_cases n <;> decide

theorem pyCharLower_idem (c : Char) :
    pyCharLower (pyCharLower c) = pyCharLower c := by
  by_cases h : 65 ≤ c.toNat ∧ c.toNat ≤ 90
  · have h1 : pyCharLower c = Char.ofNat (c.toNat + 32) := if_pos h
    have h2 : (Char.ofNat (c.toNat + 32)).toNat = c.toNat + 32 :=
      ofNat_add32_toNat _ h.1 h.2
    rw [h1]
    unfold pyCharLower
    rw [h2, if_neg (by omega)]
  · have h1 : pyCharLower c = c := if_neg h
    rw [h1]
    exact h1

theorem pyLower_fixed_of (s : String) (h : ∀ c ∈ s.data, pyCharLower c = c) :
    pyLower s = s := by
  cases s with
  | mk l =>
    exact congrArg String.mk ((List.map_congr_left h).trans (List.map_id' l))

theorem pyLower_append (a b : String) :
    pyLower (a ++ b) = pyLower a ++ pyLower b := by
  cases a with
  | mk la =>
      cases b with
      | mk lb =>
          show String.mk ((la ++ lb).map pyCharLower) = _
          rw [List.map_append]
          rfl

theorem shQuote_fixed (s : String) (h : ∀ c ∈ s.data, pyCharLower c = c) :
    pyLower (shQuote s) = shQuote s := by
  unfold shQuote
  by_cases h0 : s = ""
  · rw [if_pos h0]; rfl
  · rw [if_neg h0]
    by_cases hsafe : s.data.all shSafeChar
    · rw [if_pos hsafe]; exact pyLower_fixed_of s h
    · rw [if_neg hsafe]
      rw [pyLower_append, pyLower_append]
      have h1 : pyLower (String.singleton '\'') = String.singleton '\'' := rfl
      rw [h1]
      congr 1
      congr 1
      apply pyLower_fixed_of
      intro c hc
      rcases List.mem_flatMap.mp hc with ⟨d, hd, hcd⟩
      by_cases hq : d = '\''
      · rw [if_pos hq] at hcd
        simp only [List.mem_cons, List.not_mem_nil, or_false] at hcd
        rcases hcd with rfl | rfl | rfl | rfl | rfl <;> rfl
      · rw [if_neg hq] at hcd
        simp only [List.mem_cons, List.not_mem_nil, or_false] at hcd
        exact hcd ▸ h d hd

theorem mem_firstLine {c : Char} {l : List Char} (h : c ∈ firstLine l) : c ∈ l :=
  List.takeWhile_subset _ h

theorem toHere_mem {l pre post : List Char} (h : toHere l = some (pre, post)) :
    pre = [] ∧ ∀ c ∈ post, c ∈ l := by
  unfold toHere at h
  split at h
  · simp only [Option.some.injEq, Prod.mk.injEq] at h
    obtain ⟨rfl, rfl⟩ := h
    refine ⟨rfl, fun c hc => ?_⟩
    simp only [List.mem_cons] at hc ⊢
    tauto
  · cases h

theorem splitTo_mem : ∀ {t pre post : List Char},
    splitTo t = some (pre, post) →
    (∀ c ∈ pre, c ∈ t) ∧ (∀ c ∈ post, c ∈ t) := by
  intro t
  induction t with
  | nil => intro pre post h; cases h
  | cons a rest ih =>
      intro pre post h
      rw [show splitTo (a :: rest) =
            (match splitTo rest with
             | some (pre, post) => some (a :: pre, post)
             | none => toHere (a :: rest)) from rfl] at h
      cases hr : splitTo rest with
      | some pq =>
          obtain ⟨p, q⟩ := pq
          rw [hr] at h
          simp only [Option.some.injEq, Prod.mk.injEq] at h
          obtain ⟨rfl, rfl⟩ := h
          obtain ⟨ihp, ihq⟩ := ih hr
          constructor
          · intro c hc
            rcases List.mem_cons.mp hc with rfl | hc
            · exact List.mem_cons_self _ _
            · exact List.mem_cons_of_mem _ (ihp c hc)
          · intro c hc
            exact List.mem_cons_of_mem _ (ihq c hc)
      | none =>
          rw [hr] at h
          obtain ⟨rfl, hq⟩ := toHere_mem h
          exact ⟨fun c hc => absurd hc (List.not_mem_nil c), hq⟩

theorem nlFolder_lower {pre u t : String}
    (h : nlFolder pre u = some t)
    (hfix : ∀ c ∈ u.data, pyCharLower c = c) : pyLower t = t := by
  unfold nlFolder at h
  by_cases hp : strHasPrefix u pre
  · rw [if_pos hp] at h
    cases hg : firstLine (u.data.drop pre.length) with
    | nil => rw [hg] at h; cases h
    | cons x xs =>
        rw [hg] at h
        simp only [Option.some.injEq] at h
        subst h
        rw [pyLower_append]
        have hm : pyLower "mkdir " = "mkdir " := rfl
        rw [hm]
        congr 1
        apply shQuote_fixed
        intro c hc
        exact hfix c (List.mem_of_mem_drop (mem_firstLine (hg ▸ hc)))
  · rw [if_neg hp] at h; cases h

theorem nlFile_lower {u t : String}
    (h : nlFile u = some t)
    (hfix : ∀ c ∈ u.data, pyCharLower c = c) : pyLower t = t := by
  unfold nlFile at h
  by_cases hp : strHasPrefix u "create file "
  · rw [if_pos hp] at h
    cases hg : firstLine (u.data.drop "create file ".length) with
    | nil => rw [hg] at h; cases h
    | cons x xs =>
        rw [hg] at h
        simp only [Option.some.injEq] at h
        subst h
        rw [pyLower_append]
        have hm : pyLower "touch " = "touch " := rfl
        rw [hm]
        congr 1
        apply shQuote_fixed
        intro c hc
        exact hfix c (List.mem_of_mem_drop (mem_firstLine (hg ▸ hc)))
  · rw [if_neg hp] at h; cases h

theorem nlMove_lower {u t : String}
    (h : nlMove u = some t)
    (hfix : ∀ c ∈ u.data, pyCharLower c = c) : pyLower t = t := by
  unfold nlMove at h
  by_cases hp : strHasPrefix u "move "
  · rw [if_pos hp] at h
    cases hg : splitTo (firstLine (u.data.drop 5)) with
    | none => rw [hg] at h; cases h
    | some pq =>
        obtain ⟨p, q⟩ := pq
        rw [hg] at h
        have h' : (if p ≠ [] then
            some ("mv " ++ shQuote (String.mk p) ++ " " ++ shQuote (String.mk q))
            else none) = some t := h
        by_cases hne : p ≠ []
        · rw [if_pos hne] at h'
          simp only [Option.some.injEq] at h'
          subst h'
          obtain ⟨hp1, hp2⟩ := splitTo_mem hg
          have hsub : ∀ c ∈ p, pyCharLower c = c := fun c hc =>
            hfix c (List.mem_of_mem_drop (mem_firstLine (hp1 c hc)))
          have hsub2 : ∀ c ∈ q, pyCharLower c = c := fun c hc =>
            hfix c (List.mem_of_mem_drop (mem_firstLine (hp2 c hc)))
          rw [pyLower_append, pyLower_append, pyLower_append]
          have hmv : pyLower "mv " = "mv " := rfl
          have hsp : pyLower " " = " " := rfl
          rw [hmv, hsp, shQuote_fixed _ hsub, shQuote_fixed _ hsub2]
        · rw [if_neg hne] at h'; cases h'
  · rw [if_neg hp] at h; cases h

/-- When the effective line has no redirection token, the body of `execute`
after translation always returns a textual result. -/
theorem executeCore_no_redirect_ok (b : Backend) (fs : FS) (s : String)
    (h : redirFree s = true) :
    ∃ out b' fs', executeCore b fs s = .ok (out, b', fs') := by
  unfold redirFree at h
  by_cases he : pyStrip s = ""
  · exact ⟨"", b, fs, by unfold executeCore; simp [he]⟩
  · cases hs : shlexSplit (pyStrip s) with
    | error e =>
        exact ⟨"parse error: " ++ e, b, fs, by unfold executeCore; simp [he, hs]⟩
    | ok parts =>
        rw [hs] at h
        simp only [decide_eq_true_eq] at h
        unfold executeCore
        simp only [if_neg he, hs, if_neg h]
        exact ⟨_, _, _, rfl⟩

/-! ### Claims -/

/-- C1: the spec requires `_resolve` to confine every result to the sandbox
root by a canonical path-component containment test, rejecting escapes with
a `SandboxViolation`.  The source instead guards with the string test
`candidate.startswith(self.root)`, so with root `/tmp/sandbox` the input
`../sandboxevil/secret` (a `..` escape into a sibling directory whose name
begins with the root's name, no symlinks involved) resolves successfully to
`/tmp/sandboxevil/secret`, a canonical path that is neither the root nor a
path-component descendant of it.  This violates the claim at this input. -/
theorem C1_resolve_escapes_by_string_prefix :
    pyResolve "/tmp/sandbox" "/tmp/sandbox" "../sandboxevil/secret" =
      .ok "/tmp/sandboxevil/secret" ∧
    pathWithin "/tmp/sandbox" "/tmp/sandboxevil/secret" = false :=
  ⟨rfl, rfl⟩

/-- C4: any `rm` whose first operand resolves to the sandbox root returns
the refusing-to-remove-root message as ordinary output and leaves the
session state and the filesystem exactly as they were. -/
theorem C4_rm_root_refused (b : Backend) (fs : FS) (arg : String)
    (rest : List String) (hres : pyResolve b.root b.cwd arg = .ok b.root) :
    cmd_rm b fs (arg :: rest) = .ok ("rm: refusing to remove root sandbox", b, fs) := by
  simp only [cmd_rm, resolveH, hres, Bind.bind, Except.bind]
  simp

/-- C4 witness: `rm /` on a fresh sandbox. -/
theorem C4_rm_root_refused_witness :
    cmd_rm b0 fs0 ["/"] = .ok ("rm: refusing to remove root sandbox", b0, fs0) :=
  C4_rm_root_refused b0 fs0 "/" [] rfl

/-- C8: in every session state, `cd` with no arguments returns empty output
and resets the working directory to the sandbox root, and `pwd` executed
immediately afterwards returns exactly `/`. -/
theorem C8_cd_noargs_then_pwd (b : Backend) (fs : FS) :
    execute b fs "cd" = .ok ("", { b with cwd := b.root }, fs) ∧
    execute { b with cwd := b.root } fs "pwd" =
      .ok ("/", { b with cwd := b.root }, fs) := by
  constructor
  · rfl
  · have h : execute { b with cwd := b.root } fs "pwd" =
        .ok ((if pyRelpath b.root b.root = "." then "/"
              else "/" ++ pyRelpath b.root b.root),
          { b with cwd := b.root }, fs) := rfl
    rw [h, pyRelpath_self]
    simp

/-- C3: for a file that resolves inside the sandbox, `cat` returns its full
contents exactly when its byte size is at most `MAX_CAT_SIZE = 204800`
(200 KiB inclusive), and for any strictly larger file it returns only the
"file too large (N bytes)" message carrying the actual size. -/
theorem C3_cat_size_cap (b : Backend) (fs : FS) (arg p content : String)
    (rest : List String)
    (hres : pyResolve b.root b.cwd arg = .ok p)
    (hfile : fsLookupFile fs p = some content) :
    (content.utf8ByteSize ≤ MAX_CAT_SIZE →
      cmd_cat b fs (arg :: rest) = .ok (content, b, fs)) ∧
    (content.utf8ByteSize > MAX_CAT_SIZE →
      cmd_cat b fs (arg :: rest) =
        .ok ("cat: file too large (" ++ toString content.utf8ByteSize ++ " bytes)",
          b, fs)) := by
  constructor
  · intro hle
    simp only [cmd_cat, resolveH, hres, hfile, Bind.bind, Except.bind]
    rw [if_neg (by omega)]
  · intro hgt
    simp only [cmd_cat, resolveH, hfile, hres, Bind.bind, Except.bind]
    rw [if_pos hgt]

/-- C3 witness: `cat f.txt` on a 2-byte file returns its contents. -/
theorem C3_cat_size_cap_witness :
    cmd_cat b0 fsSmall ["f.txt"] = .ok ("hi", b0, fsSmall) :=
  (C3_cat_size_cap b0 fsSmall "f.txt" "/sandbox/f.txt" "hi" [] rfl rfl).1 (by decide)

/-- C5 counterexample: the claim says the recursive flag works "regardless
of whether the flag appears before or after the path argument", but `rm -r d`
(flag first) resolves `args[0] = "-r"` as the operand, tries to
`os.remove` the nonexistent path `-r` under the sandbox root, and deletes
nothing — the directory `d` and its file survive untouched. -/
theorem C5_rm_flag_before_path_deletes_nothing :
    execute b0 fsDir "rm -r d" =
      .ok ("Error: [Errno 2] No such file or directory: /sandbox/-r", b0, fsDir) :=
  rfl

/-- C5 (amended): for a directory inside the sandbox (other than the root),
`rm` without the recursive flag deletes nothing and returns the use-`-r`
guidance message; with the flag among the arguments AFTER the path operand
(the path must be the first argument) it deletes the entire directory
subtree.  With the flag before the path, the flag itself is resolved as the
operand and the directory is not deleted (see the counterexample). -/
theorem C5_rm_directory_recursive_flag (b : Backend) (fs : FS) (arg d : String)
    (rest : List String)
    (hres : pyResolve b.root b.cwd arg = .ok d)
    (hdir : fsIsDir fs d = true) (hroot : d ≠ b.root) :
    (("-r" ∉ arg :: rest ∧ "--recursive" ∉ arg :: rest) →
      cmd_rm b fs (arg :: rest) =
        .ok ("rm: is a directory (use -r to remove directories)", b, fs)) ∧
    (("-r" ∈ rest ∨ "--recursive" ∈ rest) →
      cmd_rm b fs (arg :: rest) = .ok ("", b, fsRmtree fs d)) := by
  constructor
  · intro hno
    simp only [cmd_rm, resolveH, hres, Bind.bind, Except.bind]
    rw [if_neg hroot, if_pos hdir, if_neg]
    simp only [List.mem_cons] at hno
    push_neg at hno
    rcases hno with ⟨h1, h2⟩
    rintro (h | h)
    · rcases List.mem_cons.mp h with h' | h'
      · exact h1.1 h'
      · exact h1.2 h'
    · rcases List.mem_cons.mp h with h' | h'
      · exact h2.1 h'
      · exact h2.2 h'
  · intro hyes
    simp only [cmd_rm, resolveH, hres, Bind.bind, Except.bind]
    rw [if_neg hroot, if_pos hdir, if_pos]
    rcases hyes with h | h
    · exact Or.inl (List.mem_cons_of_mem _ h)
    · exact Or.inr (List.mem_cons_of_mem _ h)

/-- C5 witness: on a sandbox with directory `d` holding one file,
`rm d` returns the guidance message and deletes nothing, and `rm d -r`
(flag after the operand) removes the whole subtree. -/
theorem C5_rm_directory_recursive_flag_witness :
    cmd_rm b0 fsDir ["d"] =
      .ok ("rm: is a directory (use -r to remove directories)", b0, fsDir) ∧
    cmd_rm b0 fsDir ["d", "-r"] = .ok ("", b0, fsRmtree fsDir "/sandbox/d") :=
  ⟨(C5_rm_directory_recursive_flag b0 fsDir "d" "/sandbox/d" [] rfl rfl
      (by decide)).1 (by decide),
   (C5_rm_directory_recursive_flag b0 fsDir "d" "/sandbox/d" ["-r"] rfl rfl
      (by decide)).2 (Or.inl (by decide))⟩

/-- C2 counterexample: the claim says `execute` never raises, but the
resolution of a redirection target sits outside the source's `try` block:
`echo hi > ..` resolves the target `..` to the sandbox root's parent, the
`startswith` guard fails, and the `PermissionError` propagates out of
`execute` uncaught. -/
theorem C2_redirection_error_escapes_execute :
    execute b0 fs0 "echo hi > .." =
      .error (.permission "Access outside sandbox is not allowed.", b0, fs0) :=
  rfl

/-- C2 (amended): for every raw input line whose effective (translated)
form carries no top-level `>` token once tokenized — blank lines and parse
failures included — `execute` returns a textual result and never raises:
sandbox violations, unknown commands and every handler exception are
converted to text and the session stays usable.  Failures while resolving
or writing a redirection target, however, are not guarded and escape (see
the counterexample). -/
theorem C2_execute_ok_without_redirection (b : Backend) (fs : FS) (raw : String)
    (h : redirFree (effectiveLine raw) = true) :
    ∃ out b' fs', execute b fs raw = .ok (out, b', fs') := by
  unfold effectiveLine at h
  unfold execute
  cases hnl : nl_to_cmd raw with
  | some c => rw [hnl] at h; exact executeCore_no_redirect_ok b fs c h
  | none => rw [hnl] at h; exact executeCore_no_redirect_ok b fs raw h

/-- C2 witness: an unknown command with a nonsense argument still yields a
textual result on a fresh session. -/
theorem C2_execute_ok_without_redirection_witness :
    ∃ out b' fs', execute b0 fs0 "boguscmd ../../x" = .ok (out, b', fs') :=
  C2_execute_ok_without_redirection b0 fs0 "boguscmd ../../x" rfl

/-- C6: in any session where `out.txt` resolves, the parent directory is
creatable and the write lands, `echo hello > out.txt` returns the empty
string (redirection suppresses the output), and a subsequent `cat out.txt`
returns exactly `hello` — the round trip on the echoed text. -/
theorem C6_echo_redirect_cat_roundtrip (b : Backend) (fs fs₁ fs₂ : FS)
    (tgt : String)
    (hres : pyResolve b.root b.cwd "out.txt" = .ok tgt)
    (hmk : fsMakedirs fs (pyDirname tgt) = .ok fs₁)
    (hw : fsWrite fs₁ tgt "hello" = .ok fs₂) :
    execute b fs "echo hello > out.txt" = .ok ("", b, fs₂) ∧
    execute b fs₂ "cat out.txt" = .ok ("hello", b, fs₂) := by
  have hlook : fsLookupFile fs₂ tgt = some "hello" := fsWrite_ok_lookup hw
  constructor
  · change (match pyResolve b.root b.cwd "out.txt" with
      | .error e => Except.error (e, b, fs)
      | .ok target =>
        match fsMakedirs fs (pyDirname target) with
        | .error e => Except.error (e, b, fs)
        | .ok g₁ =>
          match fsWrite g₁ target "hello" with
          | .error e => Except.error (e, b, g₁)
          | .ok g₂ => Except.ok ("", b, g₂)) = Except.ok ("", b, fs₂)
    simp only [hres, hmk, hw]
  · have hcat : cmd_cat b fs₂ ["out.txt"] = .ok ("hello", b, fs₂) := by
      simp only [cmd_cat, resolveH, hres, hlook, Bind.bind, Except.bind]
      rw [if_neg (by decide)]
    change (match (match cmd_cat b fs₂ ["out.txt"] with
        | .ok (out, b', f') => (out, true, b', f')
        | .error (.permission m, b', f') => ("PermissionError: " ++ m, false, b', f')
        | .error (.other m, b', f') => ("Error: " ++ m, false, b', f')) with
      | (out, _ok, b', f') => Except.ok (out, b', f')) = Except.ok ("hello", b, fs₂)
    simp only [hcat]

/-- C6 witness: the round trip on a fresh sandbox. -/
theorem C6_echo_redirect_cat_roundtrip_witness :
    execute b0 fs0 "echo hello > out.txt" = .ok ("", b0, fsOut) ∧
    execute b0 fsOut "cat out.txt" = .ok ("hello", b0, fsOut) :=
  C6_echo_redirect_cat_roundtrip b0 fs0 fs0 fsOut "/sandbox/out.txt" rfl rfl rfl

/-- C7: the natural-language line `create a folder called notes` executes
exactly as `mkdir notes` does, `move a.txt to b.txt` exactly as
`mv a.txt b.txt`, and any line matching no translation pattern reaches the
tokenizer unmodified (the run equals the post-translation pipeline applied
to the original line). -/
theorem C7_nl_translation_equivalence (b : Backend) (fs : FS) :
    execute b fs "create a folder called notes" = execute b fs "mkdir notes" ∧
    execute b fs "move a.txt to b.txt" = execute b fs "mv a.txt b.txt" ∧
    ∀ raw, nl_to_cmd raw = none → execute b fs raw = executeCore b fs raw := by
  refine ⟨rfl, rfl, ?_⟩
  intro raw h
  simp [execute, h]

/-- C7 witness: the equivalences on a fresh session, and an untranslated
line (`pwd`) passing through unchanged. -/
theorem C7_nl_translation_equivalence_witness :
    (execute b0 fs0 "create a folder called notes" =
      execute b0 fs0 "mkdir notes") ∧
    execute b0 fs0 "pwd" = executeCore b0 fs0 "pwd" :=
  ⟨(C7_nl_translation_equivalence b0 fs0).1,
   (C7_nl_translation_equivalence b0 fs0).2.2 "pwd" rfl⟩

/-- C10: with a valid redirection target, the caller sees empty output even
when the command portion fails: the unknown command `frobnicate`'s
"command not found" message is written into the target file instead of
being returned. -/
theorem C10_redirect_swallows_command_failure (b : Backend)
    (fs fs₁ fs₂ : FS) (tgt : String)
    (hres : pyResolve b.root b.cwd "out.txt" = .ok tgt)
    (hmk : fsMakedirs fs (pyDirname tgt) = .ok fs₁)
    (hw : fsWrite fs₁ tgt "frobnicate: command not found" = .ok fs₂) :
    execute b fs "frobnicate > out.txt" = .ok ("", b, fs₂) ∧
    fsLookupFile fs₂ tgt = some "frobnicate: command not found" := by
  refine ⟨?_, fsWrite_ok_lookup hw⟩
  change (match pyResolve b.root b.cwd "out.txt" with
    | .error e => Except.error (e, b, fs)
    | .ok target =>
      match fsMakedirs fs (pyDirname target) with
      | .error e => Except.error (e, b, fs)
      | .ok g₁ =>
        match fsWrite g₁ target "frobnicate: command not found" with
        | .error e => Except.error (e, b, g₁)
        | .ok g₂ => Except.ok ("", b, g₂)) = Except.ok ("", b, fs₂)
  simp only [hres, hmk, hw]

/-- C10 witness: `frobnicate > out.txt` on a fresh sandbox. -/
theorem C10_redirect_swallows_command_failure_witness :
    execute b0 fs0 "frobnicate > out.txt" = .ok ("", b0, fsNotFound) ∧
    fsLookupFile fsNotFound "/sandbox/out.txt" =
      some "frobnicate: command not found" :=
  C10_redirect_swallows_command_failure b0 fs0 fs0 fsNotFound
    "/sandbox/out.txt" rfl rfl rfl

/-- C9: the translator lowercases the whole input before matching, so every
command it emits — captured argument text included — is all-lowercase
(a fixed point of lowercasing); concretely, `create file README.md` creates
`readme.md`, not `README.md`. -/
theorem C9_translator_lowercases_input :
    (∀ s t, nl_to_cmd s = some t → pyLower t = t) ∧
    execute b0 fs0 "create file README.md" = .ok ("", b0, fsReadme) := by
  constructor
  · intro s t h
    unfold nl_to_cmd at h
    have hfix : ∀ c ∈ (pyLower (pyStrip s)).data, pyCharLower c = c := by
      intro c hc
      rcases List.mem_map.mp hc with ⟨d, _, rfl⟩
      exact pyCharLower_idem d
    unfold nlMatch at h
    cases h1 : nlFolder "create a folder called " (pyLower (pyStrip s)) with
    | some r =>
        rw [h1] at h
        simp only [Option.some.injEq] at h
        exact h ▸ nlFolder_lower h1 hfix
    | none =>
        rw [h1] at h
        cases h2 : nlFolder "create folder called " (pyLower (pyStrip s)) with
        | some r =>
            rw [h2] at h
            simp only [Option.some.injEq] at h
            exact h ▸ nlFolder_lower h2 hfix
        | none =>
            rw [h2] at h
            cases h3 : nlMove (pyLower (pyStrip s)) with
            | some r =>
                rw [h3] at h
                simp only [Option.some.injEq] at h
                exact h ▸ nlMove_lower h3 hfix
            | none =>
                rw [h3] at h
                exact nlFile_lower h hfix
  · rfl

/-- C9 witness: the translation of `create file README.md` is
`touch readme.md`, a fixed point of lowercasing. -/
theorem C9_translator_lowercases_input_witness :
    pyLower "touch readme.md" = "touch readme.md" :=
  C9_translator_lowercases_input.1 "create file README.md" "touch readme.md" rfl

end CodeNexus
